import Mathlib

/-!
Verification of the mmapio memory-mapped-file library against its
natural-language specification.

The definitions below are a shallow embedding of `mmapio.c` (current
revision, the one declaring `mmapio_mode_bequeath`).  C `size_t` values
are modelled as `Nat`; arithmetic that C performs modulo `2^64` is made
explicit with `% SIZE_MOD` wherever a wrap is reachable, and theorems
carry `< SIZE_MOD` bounds expressing the `size_t` typing of inputs.
Operating-system calls (`open`, `fcntl`, `fstat`, `sysconf`, `mmap`,
`GetFileSizeEx`, `GetSystemInfo`, `CreateFileMappingA`, `MapViewOfFile`)
are modelled as oracles packaged in an environment record: each field
holds the value the call returns in the run under consideration.
-/

/-- 2^64, the modulus of C `size_t` arithmetic on the 64-bit targets
the library is built for. -/
def SIZE_MOD : Nat := 18446744073709551616

/-- `~(size_t)0u` = `SIZE_MAX` = 2^64 - 1, as written in the overflow
guard of `mmapio_open_rest`. -/
def SIZE_MAX : Nat := 18446744073709551615

/-- POSIX `mmap` failure sentinel `MAP_FAILED` = `(void*)-1`,
i.e. 2^64 - 1 as an address.  POSIX `mmap` returns this value, never
`NULL`, when the mapping cannot be made. -/
def MAP_FAILED : Nat := 18446744073709551615

/-- enum mmapio_mode: mmapio_mode_read = 0x72 = r. -/
def mmapio_mode_read : Nat := 0x72

/-- enum mmapio_mode: mmapio_mode_write = 0x77 = w. -/
def mmapio_mode_write : Nat := 0x77

/-- enum mmapio_mode: mmapio_mode_end = 0x65 = e. -/
def mmapio_mode_end : Nat := 0x65

/-- enum mmapio_mode: mmapio_mode_private = 0x70 = p. -/
def mmapio_mode_private : Nat := 0x70

/-- enum mmapio_mode: mmapio_mode_bequeath = 0x71 = q. -/
def mmapio_mode_bequeath : Nat := 0x71

/-- struct mmapio_mode_tag.  The C field `end` is spelled `end_` here
because `end` is a Lean keyword. -/
structure mmapio_mode_tag where
  mode : Nat
  end_ : Nat
  privy : Nat
  bequeath : Nat
deriving DecidableEq, Repr

/-- One iteration body of the switch in `mmapio_mode_parse`. -/
def mmapio_mode_update (out : mmapio_mode_tag) (c : Nat) : mmapio_mode_tag :=
  if c = mmapio_mode_write then { out with mode := mmapio_mode_write }
  else if c = mmapio_mode_read then { out with mode := mmapio_mode_read }
  else if c = mmapio_mode_end then { out with end_ := mmapio_mode_end }
  else if c = mmapio_mode_private then { out with privy := mmapio_mode_private }
  else if c = mmapio_mode_bequeath then { out with bequeath := mmapio_mode_bequeath }
  else out

/-- The `for (i = 0; i < 8; ++i)` loop of `mmapio_mode_parse`.  The
input list holds the characters of the C string before its NUL
terminator; running off the end of the list is reading the terminator,
which returns `out` (the `case 0` branch). -/
def mmapio_mode_loop : Nat → List Nat → mmapio_mode_tag → mmapio_mode_tag
  | 0, _, out => out
  | _ + 1, [], out => out
  | fuel + 1, c :: rest, out =>
      if c = 0 then out
      else mmapio_mode_loop fuel rest (mmapio_mode_update out c)

/-- mmapio_mode_parse: scan at most 8 characters of the mode text,
stopping at NUL, accumulating flag characters into the tag. -/
def mmapio_mode_parse (mmode : List Nat) : mmapio_mode_tag :=
  mmapio_mode_loop 8 mmode { mode := 0, end_ := 0, privy := 0, bequeath := 0 }

/-- Unix flag translator constants (Linux values): O_RDONLY. -/
def O_RDONLY : Nat := 0

/-- Unix flag translator constants (Linux values): O_RDWR. -/
def O_RDWR : Nat := 2

/-- Unix flag translator constants (Linux values): O_CLOEXEC = 0o2000000. -/
def O_CLOEXEC : Nat := 524288

/-- PROT_READ. -/
def PROT_READ : Nat := 1

/-- PROT_WRITE. -/
def PROT_WRITE : Nat := 2

/-- MAP_SHARED. -/
def MAP_SHARED : Nat := 1

/-- MAP_PRIVATE. -/
def MAP_PRIVATE : Nat := 2

/-- mmapio_mode_rw_cvt (Unix backend): mode character to POSIX `open`
flags; the default branch returns 0, the "no privileges" sentinel,
which numerically coincides with `O_RDONLY`. -/
def mmapio_mode_rw_cvt (mmode : Nat) : Nat :=
  if mmode = mmapio_mode_write then O_RDWR ||| O_CLOEXEC
  else if mmode = mmapio_mode_read then O_RDONLY ||| O_CLOEXEC
  else 0

/-- mmapio_mode_prot_cvt (Unix backend): mode character to `mmap`
protection flags; the default branch returns 0 = `PROT_NONE`. -/
def mmapio_mode_prot_cvt (mmode : Nat) : Nat :=
  if mmode = mmapio_mode_write then PROT_WRITE ||| PROT_READ
  else if mmode = mmapio_mode_read then PROT_READ
  else 0

/-- mmapio_mode_flag_cvt (Unix backend). -/
def mmapio_mode_flag_cvt (mprivy : Nat) : Nat :=
  if mprivy ≠ 0 then MAP_PRIVATE else MAP_SHARED

/-- struct mmapio_unix: the Unix backend state.  `ptr` is the address
returned by `mmap`, `len` the total mapped length, `shift` the distance
from `ptr` to the caller's first requested byte. -/
structure mmapio_unix where
  ptr : Nat
  len : Nat
  shift : Nat
  fd : Int
deriving DecidableEq, Repr

/-- Environment record for one run of the Unix open path: the values
the operating-system calls return in that run. -/
structure UnixEnv where
  /-- result of `open(nm, flags)`: a file descriptor, or -1 on failure -/
  open_result : Int
  /-- whether `calloc` succeeds -/
  calloc_ok : Bool
  /-- result of `fcntl(fd, F_GETFD)` (negative on failure) -/
  fcntl_getfd : Int
  /-- whether the `fcntl(fd, F_SETFD, ...)` call succeeds -/
  fcntl_setfd_ok : Bool
  /-- `mmapio_file_size_e(fd)`: the `fstat` size, or 0 on `fstat` failure -/
  file_size : Nat
  /-- result of `sysconf(_SC_PAGE_SIZE)` (a C `long`, may be nonpositive) -/
  page_size : Int
  /-- address returned by `mmap`; 0 models `NULL`.  On genuine mapping
  failure POSIX `mmap` returns `MAP_FAILED` = 2^64 - 1, never `NULL`. -/
  mmap_result : Nat
deriving Repr

/-- Outcome of the Unix open path.  Besides the returned interface
(`none` models a `NULL` return), it records the resource bookkeeping a
caller of the C function could observe: whether the file descriptor and
the `calloc` block were not leaked (`true` also when never acquired),
whether `errno` was set to `ERANGE` by the range-fix guard, and the
`(fulloff, fullsize)` arguments of the `mmap` call when one was made. -/
structure URes where
  handle : Option mmapio_unix
  fd_closed : Bool
  mem_freed : Bool
  errno_erange : Bool
  mapped : Option (Nat × Nat)
deriving DecidableEq, Repr

/-- Failure exit of the Unix open path: `close(fd); free(out);
return NULL;`. -/
def mmapio_unix_fail (mapargs : Option (Nat × Nat)) (er : Bool) : URes :=
  { handle := none, fd_closed := true, mem_freed := true,
    errno_erange := er, mapped := mapargs }

/-- The `mmap` call and interface initialization at the end of the Unix
`mmapio_open_rest`.  The source tests `ptr == NULL`; note that this is
not the POSIX failure sentinel `MAP_FAILED`. -/
def mmapio_mmap_step (env : UnixEnv) (fd : Int)
    (fullsize fullshift fulloff : Nat) : URes :=
  if env.mmap_result = 0 then
    mmapio_unix_fail (some (fulloff, fullsize)) false
  else
    { handle := some { ptr := env.mmap_result, len := fullsize,
                       shift := fullshift, fd := fd },
      fd_closed := false, mem_freed := false, errno_erange := false,
      mapped := some (fulloff, fullsize) }

/-- The `/* fix to page sizes */` block of the Unix `mmapio_open_rest`:
alignment correction and overflow guard, then the `mmap` step.  The C
locals are substituted in place of each use: `fullshift` is
`off % env.page_size.toNat`, `fulloff` is `off - fullshift`, and
`fullsize` is `sz + fullshift` (or `sz` when the page size query is
non-positive, in which case `fullshift` is 0 and `fulloff` is `off`). -/
def mmapio_page_fix (env : UnixEnv) (fd : Int) (sz off : Nat) : URes :=
  if 0 < env.page_size then
    (if SIZE_MAX - sz ≤ off % env.page_size.toNat then
      mmapio_unix_fail none true
     else
      mmapio_mmap_step env fd (sz + off % env.page_size.toNat)
        (off % env.page_size.toNat) (off - off % env.page_size.toNat))
  else mmapio_mmap_step env fd sz 0 off

/-- mmapio_open_rest (Unix backend): `calloc`, the close-on-exec
configuration, the extend-to-end size fix, then page fixing and
mapping.  `fcntl` breakage is modelled by the two fcntl oracle
fields. -/
def mmapio_open_rest (env : UnixEnv) (fd : Int) (mt : mmapio_mode_tag)
    (sz off : Nat) : URes :=
  if env.calloc_ok = false then
    { handle := none, fd_closed := true, mem_freed := true,
      errno_erange := false, mapped := none }
  else if env.fcntl_getfd < 0 ∨ env.fcntl_setfd_ok = false then
    { handle := none, fd_closed := true, mem_freed := true,
      errno_erange := false, mapped := none }
  else if mt.end_ ≠ 0 then
    (if env.file_size < off then mmapio_page_fix env fd 0 off
     else mmapio_page_fix env fd (env.file_size - off) off)
  else mmapio_page_fix env fd sz off

/-- mmapio_open (Unix backend entry point).  The filename parameter
only feeds the `open` system call, whose outcome the environment's
`open_result` field models, so it is not a parameter here. -/
def mmapio_open (env : UnixEnv) (mode : List Nat) (sz off : Nat) : URes :=
  let mt := mmapio_mode_parse mode
  if env.open_result = -1 then
    { handle := none, fd_closed := true, mem_freed := true,
      errno_erange := false, mapped := none }
  else mmapio_open_rest env env.open_result mt sz off

/-- mmapio_mmi_length (Unix backend): `mu->len - mu->shift` in `size_t`
arithmetic. -/
def mmapio_mmi_length (m : mmapio_unix) : Nat :=
  (SIZE_MOD + m.len - m.shift) % SIZE_MOD

/-- mmapio_mmi_acquire (Unix backend): `(unsigned char*)mu->ptr +
mu->shift`, unconditionally. -/
def mmapio_mmi_acquire (m : mmapio_unix) : Nat :=
  (m.ptr + m.shift) % SIZE_MOD

/-- struct mmapio_win32: the Win32 backend state.  `fmd` is the
`CreateFileMappingA` handle, `fd` the `CreateFile.` handle. -/
structure mmapio_win32 where
  ptr : Nat
  len : Nat
  shift : Nat
  fmd : Nat
  fd : Nat
deriving DecidableEq, Repr

/-- Environment record for one run of the Win32 open-rest path. -/
structure WinEnv where
  /-- whether `calloc` succeeds -/
  calloc_ok : Bool
  /-- `mmapio_file_size_e(fd)`: `GetFileSizeEx` size, or 0 on failure -/
  file_size : Nat
  /-- `SYSTEM_INFO.dwAllocationGranularity` from `GetSystemInfo` -/
  alloc_gran : Nat
  /-- handle returned by `CreateFileMappingA`; 0 models `NULL` failure -/
  cfm_result : Nat
  /-- address returned by `MapViewOfFile`; 0 models `NULL` failure -/
  mvof_result : Nat
deriving Repr

/-- Outcome of the Win32 open-rest path, mirroring `URes` and also
recording whether the file-mapping handle was not leaked and the
clamped `fullextent` passed to `CreateFileMappingA` when that call was
made. -/
structure WRes where
  handle : Option mmapio_win32
  fd_closed : Bool
  fmd_closed : Bool
  mem_freed : Bool
  errno_erange : Bool
  cfm_extent : Option Nat
  mapped : Option (Nat × Nat)
deriving DecidableEq, Repr

/-- Failure exit of the Win32 open path before the mapping calls:
`CloseHandle(fd); free(out); return NULL;`. -/
def mmapio_w32_fail (er : Bool) : WRes :=
  { handle := none, fd_closed := true, fmd_closed := true,
    mem_freed := true, errno_erange := er, cfm_extent := none,
    mapped := none }

/-- The `fullextent` computed just before `CreateFileMappingA`: the
mapping-object extent `extended_size + fulloff` clamped to the file
size.  The sum is C `size_t` addition, hence the explicit modulus. -/
def mmapio_fullextent (env : WinEnv) (extended_size fulloff : Nat) : Nat :=
  if env.file_size > (extended_size + fulloff) % SIZE_MOD
  then (extended_size + fulloff) % SIZE_MOD
  else env.file_size

/-- The `CreateFileMappingA` and `MapViewOfFile` calls and interface
initialization at the end of the Win32 `mmapio_open_rest`.  The C
local `fullextent` is factored into `mmapio_fullextent` and written in
place of each use. -/
def mmapio_w32_map_step (env : WinEnv) (fd : Nat)
    (fullsize fullshift fulloff extended_size : Nat) : WRes :=
  if env.cfm_result = 0 then
    { handle := none, fd_closed := true, fmd_closed := true,
      mem_freed := true, errno_erange := false,
      cfm_extent := some (mmapio_fullextent env extended_size fulloff),
      mapped := none }
  else if env.mvof_result = 0 then
    { handle := none, fd_closed := true, fmd_closed := true,
      mem_freed := true, errno_erange := false,
      cfm_extent := some (mmapio_fullextent env extended_size fulloff),
      mapped := some (fulloff, fullsize) }
  else
    { handle := some { ptr := env.mvof_result, len := fullsize,
                       shift := fullshift, fmd := env.cfm_result, fd := fd },
      fd_closed := false, fmd_closed := false, mem_freed := false,
      errno_erange := false,
      cfm_extent := some (mmapio_fullextent env extended_size fulloff),
      mapped := some (fulloff, fullsize) }

/-- The `/* adjust the size */` rounding of the Win32 backend: round
`fullsize` up to the next multiple of the allocation granularity
(`size_shift` is `fullsize % env.alloc_gran`).  The rounding sum can
wrap in `size_t`, hence the explicit modulus. -/
def mmapio_w32_extended (env : WinEnv) (fullsize : Nat) : Nat :=
  if 0 < fullsize % env.alloc_gran then
    (fullsize + (env.alloc_gran - fullsize % env.alloc_gran)) % SIZE_MOD
  else fullsize

/-- The `/* fix to allocation granularity */` block of the Win32
`mmapio_open_rest`: alignment correction, overflow guard, and rounding
of `fullsize` up to the next granularity multiple.  The C locals are
substituted in place of each use: `psize` is `env.alloc_gran`,
`fullshift` is `off % psize`, `fulloff` is `off - fullshift`,
`fullsize` is `sz + fullshift`, and `extended_size` is
`mmapio_w32_extended env fullsize` (or `sz` when the granularity is
0, in which case `fullshift` is 0 and `fulloff` is `off`). -/
def mmapio_w32_gran_fix (env : WinEnv) (fd : Nat) (sz off : Nat) : WRes :=
  if 0 < env.alloc_gran then
    (if SIZE_MAX - sz ≤ off % env.alloc_gran then mmapio_w32_fail true
     else
      mmapio_w32_map_step env fd (sz + off % env.alloc_gran)
        (off % env.alloc_gran) (off - off % env.alloc_gran)
        (mmapio_w32_extended env (sz + off % env.alloc_gran)))
  else mmapio_w32_map_step env fd sz 0 off sz

/-- mmapio_open_rest (Win32 backend): `calloc`, the extend-to-end size
fix with its explicit rejection branches (offset beyond end of file,
and zero size without extend-to-end), then granularity fixing and
mapping. -/
def mmapio_open_rest_w32 (env : WinEnv) (fd : Nat) (mt : mmapio_mode_tag)
    (sz off : Nat) : WRes :=
  if env.calloc_ok = false then
    { handle := none, fd_closed := true, fmd_closed := true,
      mem_freed := true, errno_erange := false, cfm_extent := none,
      mapped := none }
  else if mt.end_ ≠ 0 then
    (if env.file_size < off then mmapio_w32_fail false
     else mmapio_w32_gran_fix env fd (env.file_size - off) off)
  else if sz = 0 then mmapio_w32_fail false
  else mmapio_w32_gran_fix env fd sz off

/-- mmapio_mmi_length (Win32 backend): `mu->len - mu->shift` in
`size_t` arithmetic. -/
def mmapio_mmi_length_w32 (m : mmapio_win32) : Nat :=
  (SIZE_MOD + m.len - m.shift) % SIZE_MOD

/-- mmapio_mmi_acquire (Win32 backend): `(unsigned char*)mu->ptr +
mu->shift`, unconditionally. -/
def mmapio_mmi_acquire_w32 (m : mmapio_win32) : Nat :=
  (m.ptr + m.shift) % SIZE_MOD

/-- MMAPIO_EILSEQ: the Win32 backend maps decode failures to `EILSEQ`
(42 in the Microsoft C runtime). -/
def MMAPIO_EILSEQ : Nat := 42

/-- ERANGE (34). -/
def ERANGE : Nat := 34

/-- `sz_max` in `mmapio_u8towc_shim`: `UINT_MAX/2u - 4u`. -/
def u8towc_sz_max : Nat := 4294967295 / 2 - 4

/-- The scanning loop of `mmapio_u8towc_shim`.  The input list holds
the bytes of the C string before its NUL terminator; `n` is the output
cursor.  Reads of `*(p+i)` are `List.getD` with default 0 (the
terminator).  The returned list holds the UTF-16 code units produced;
`Except.error` models the early `return` of an errno value.  Note the
continuation-byte loops read `*(p + i)` with `i` counting from 0, so
the first byte they examine is the lead byte itself, exactly as in the
source.  The `fuel` argument only bounds the recursion; every
iteration consumes at least one input byte, so any fuel of at least
the list length makes the fuel-exhaustion branch unreachable. -/
def mmapio_u8towc_loop : Nat → List Nat → Nat → Except Nat (List Nat)
  | 0, _, _ => .ok []
  | _ + 1, [], _ => .ok []
  | fuel + 1, v :: rest, n =>
    if v = 0 then .ok []
    else if ¬ n < u8towc_sz_max then .ok []
    else if u8towc_sz_max ≤ n then .error ERANGE
    else if v < 0x80 then
      match mmapio_u8towc_loop fuel rest (n + 1) with
      | .ok us => .ok (v :: us)
      | .error e => .error e
    else if v < 0xC0 then .error MMAPIO_EILSEQ
    else if v < 0xE0 then
      let v1 := (v :: rest).getD 0 0
      if v1 < 0x80 ∨ 0xC0 ≤ v1 then .error MMAPIO_EILSEQ
      else
        let qv := ((v &&& 31) <<< 6) ||| (v1 &&& 63)
        match mmapio_u8towc_loop fuel (rest.drop 1) (n + 1) with
        | .ok us => .ok (qv :: us)
        | .error e => .error e
    else if v < 0xF0 then
      let v1 := (v :: rest).getD 0 0
      if v1 < 0x80 ∨ 0xC0 ≤ v1 then .error MMAPIO_EILSEQ
      else
        let v2 := (v :: rest).getD 1 0
        if v2 < 0x80 ∨ 0xC0 ≤ v2 then .error MMAPIO_EILSEQ
        else
          let qv := ((((v &&& 15) <<< 6) ||| (v1 &&& 63)) <<< 6) ||| (v2 &&& 63)
          match mmapio_u8towc_loop fuel (rest.drop 2) (n + 1) with
          | .ok us => .ok (qv :: us)
          | .error e => .error e
    else if v < 0xF8 then
      let v1 := (v :: rest).getD 0 0
      if v1 < 0x80 ∨ 0xC0 ≤ v1 then .error MMAPIO_EILSEQ
      else
        let v2 := (v :: rest).getD 1 0
        if v2 < 0x80 ∨ 0xC0 ≤ v2 then .error MMAPIO_EILSEQ
        else
          let v3 := (v :: rest).getD 2 0
          if v3 < 0x80 ∨ 0xC0 ≤ v3 then .error MMAPIO_EILSEQ
          else
            let qv := ((((((v &&& 3) <<< 6) ||| (v1 &&& 63)) <<< 6)
                        ||| (v2 &&& 63)) <<< 6) ||| (v3 &&& 63)
            if 0x10FFFF ≤ qv then .error MMAPIO_EILSEQ
            else
              let qv2 := qv - 0x10000
              match mmapio_u8towc_loop fuel (rest.drop 3) (n + 2) with
              | .ok us =>
                  .ok ((0xD800 ||| ((qv2 >>> 10) &&& 1023))
                        :: (0xDC00 ||| (qv2 &&& 1023)) :: us)
              | .error e => .error e
    else .error MMAPIO_EILSEQ

/-- mmapio_u8towc_shim: run the loop from cursor 0.  The two passes of
the C function (length pass with a null output buffer, then fill pass)
follow the same control flow, so one function models both. -/
def mmapio_u8towc_shim (nm : List Nat) : Except Nat (List Nat) :=
  mmapio_u8towc_loop (nm.length + 1) nm 0

/-- mmapio_u8towc: `NULL` on a shim error (conversion failure),
otherwise the converted wide string (assuming `calloc` succeeds). -/
def mmapio_u8towc (nm : List Nat) : Option (List Nat) :=
  match mmapio_u8towc_shim nm with
  | .error _ => none
  | .ok us => some us

/-! Helper lemmas for the mode parser. -/

theorem mmapio_mode_tag_ext {a b : mmapio_mode_tag} (h1 : a.mode = b.mode)
    (h2 : a.end_ = b.end_) (h3 : a.privy = b.privy)
    (h4 : a.bequeath = b.bequeath) : a = b := by
  cases a; cases b; simp_all

theorem mmapio_mode_update_mode (out : mmapio_mode_tag) (c : Nat) :
    (mmapio_mode_update out c).mode =
      if c = 0x77 then 0x77 else if c = 0x72 then 0x72 else out.mode := by
  simp only [mmapio_mode_update, mmapio_mode_write, mmapio_mode_read,
    mmapio_mode_end, mmapio_mode_private, mmapio_mode_bequeath]
  split_ifs <;> simp_all

theorem mmapio_mode_update_end_ (out : mmapio_mode_tag) (c : Nat) :
    (mmapio_mode_update out c).end_ =
      if c = 0x65 then 0x65 else out.end_ := by
  simp only [mmapio_mode_update, mmapio_mode_write, mmapio_mode_read,
    mmapio_mode_end, mmapio_mode_private, mmapio_mode_bequeath]
  split_ifs <;> simp_all

theorem mmapio_mode_update_privy (out : mmapio_mode_tag) (c : Nat) :
    (mmapio_mode_update out c).privy =
      if c = 0x70 then 0x70 else out.privy := by
  simp only [mmapio_mode_update, mmapio_mode_write, mmapio_mode_read,
    mmapio_mode_end, mmapio_mode_private, mmapio_mode_bequeath]
  split_ifs <;> simp_all

theorem mmapio_mode_update_bequeath (out : mmapio_mode_tag) (c : Nat) :
    (mmapio_mode_update out c).bequeath =
      if c = 0x71 then 0x71 else out.bequeath := by
  simp only [mmapio_mode_update, mmapio_mode_write, mmapio_mode_read,
    mmapio_mode_end, mmapio_mode_private, mmapio_mode_bequeath]
  split_ifs <;> simp_all

theorem mmapio_mode_loop_end_ (l : List Nat) : ∀ (fuel : Nat)
    (out : mmapio_mode_tag), l.length ≤ fuel → 0 ∉ l →
    (mmapio_mode_loop fuel l out).end_ =
      if 0x65 ∈ l then 0x65 else out.end_ := by
  induction l with
  | nil => intro fuel out _ _; cases fuel <;> simp [mmapio_mode_loop]
  | cons c rest ih =>
    intro fuel out hf h0
    cases fuel with
    | zero => simp at hf
    | succ fuel =>
      have hc : ¬ c = 0 := by
        intro h; exact h0 (by simp [h])
      have h0r : 0 ∉ rest := fun h => h0 (List.mem_cons_of_mem _ h)
      have hfr : rest.length ≤ fuel := by simpa using hf
      rw [mmapio_mode_loop, if_neg hc, ih fuel _ hfr h0r,
        mmapio_mode_update_end_]
      by_cases h65 : c = 0x65
      · simp [h65, List.mem_cons]
      · have : ¬ (0x65 : Nat) = c := fun h => h65 h.symm
        simp [List.mem_cons, this, h65]

theorem mmapio_mode_loop_privy (l : List Nat) : ∀ (fuel : Nat)
    (out : mmapio_mode_tag), l.length ≤ fuel → 0 ∉ l →
    (mmapio_mode_loop fuel l out).privy =
      if 0x70 ∈ l then 0x70 else out.privy := by
  induction l with
  | nil => intro fuel out _ _; cases fuel <;> simp [mmapio_mode_loop]
  | cons c rest ih =>
    intro fuel out hf h0
    cases fuel with
    | zero => simp at hf
    | succ fuel =>
      have hc : ¬ c = 0 := by
        intro h; exact h0 (by simp [h])
      have h0r : 0 ∉ rest := fun h => h0 (List.mem_cons_of_mem _ h)
      have hfr : rest.length ≤ fuel := by simpa using hf
      rw [mmapio_mode_loop, if_neg hc, ih fuel _ hfr h0r,
        mmapio_mode_update_privy]
      by_cases h70 : c = 0x70
      · simp [h70, List.mem_cons]
      · have : ¬ (0x70 : Nat) = c := fun h => h70 h.symm
        simp [List.mem_cons, this, h70]

theorem mmapio_mode_loop_bequeath (l : List Nat) : ∀ (fuel : Nat)
    (out : mmapio_mode_tag), l.length ≤ fuel → 0 ∉ l →
    (mmapio_mode_loop fuel l out).bequeath =
      if 0x71 ∈ l then 0x71 else out.bequeath := by
  induction l with
  | nil => intro fuel out _ _; cases fuel <;> simp [mmapio_mode_loop]
  | cons c rest ih =>
    intro fuel out hf h0
    cases fuel with
    | zero => simp at hf
    | succ fuel =>
      have hc : ¬ c = 0 := by
        intro h; exact h0 (by simp [h])
      have h0r : 0 ∉ rest := fun h => h0 (List.mem_cons_of_mem _ h)
      have hfr : rest.length ≤ fuel := by simpa using hf
      rw [mmapio_mode_loop, if_neg hc, ih fuel _ hfr h0r,
        mmapio_mode_update_bequeath]
      by_cases h71 : c = 0x71
      · simp [h71, List.mem_cons]
      · have : ¬ (0x71 : Nat) = c := fun h => h71 h.symm
        simp [List.mem_cons, this, h71]

theorem mmapio_mode_loop_mode (l : List Nat) : ∀ (fuel : Nat)
    (out : mmapio_mode_tag), l.length ≤ fuel → 0 ∉ l →
    ¬ (0x72 ∈ l ∧ 0x77 ∈ l) →
    (mmapio_mode_loop fuel l out).mode =
      if 0x77 ∈ l then 0x77 else if 0x72 ∈ l then 0x72 else out.mode := by
  induction l with
  | nil => intro fuel out _ _ _; cases fuel <;> simp [mmapio_mode_loop]
  | cons c rest ih =>
    intro fuel out hf h0 hrw
    cases fuel with
    | zero => simp at hf
    | succ fuel =>
      have hc : ¬ c = 0 := by
        intro h; exact h0 (by simp [h])
      have h0r : 0 ∉ rest := fun h => h0 (List.mem_cons_of_mem _ h)
      have hfr : rest.length ≤ fuel := by simpa using hf
      have hrwr : ¬ (0x72 ∈ rest ∧ 0x77 ∈ rest) := fun h =>
        hrw ⟨List.mem_cons_of_mem _ h.1, List.mem_cons_of_mem _ h.2⟩
      rw [mmapio_mode_loop, if_neg hc, ih fuel _ hfr h0r hrwr,
        mmapio_mode_update_mode]
      by_cases h77 : c = 0x77
      · have h72r : (0x72 : Nat) ∉ rest := fun h =>
          hrw ⟨List.mem_cons_of_mem _ h, by simp [h77]⟩
        simp [h77, List.mem_cons, h72r]
      · by_cases h72 : c = 0x72
        · have h77r : (0x77 : Nat) ∉ rest := fun h =>
            hrw ⟨by simp [h72], List.mem_cons_of_mem _ h⟩
          have : ¬ (0x77 : Nat) = c := fun h => h77 h.symm
          simp [h72, List.mem_cons, h77r, this]
        · have e77 : ¬ (0x77 : Nat) = c := fun h => h77 h.symm
          have e72 : ¬ (0x72 : Nat) = c := fun h => h72 h.symm
          simp [List.mem_cons, e77, e72, h77, h72]

/-! Claim theorems. -/

/-- Claim C7 counterexample: mode texts rw and wr are permutations of
each other, yet parse to different descriptors, because the r and w
tokens write the same `mode` field and the later one wins. -/
theorem mmapio_mode_parse_order_dependent :
    mmapio_mode_parse [0x72, 0x77] ≠ mmapio_mode_parse [0x77, 0x72] := by
  decide

/-- Claim C7 (amended): mode parsing is order-independent for mode
texts of length at most 8 (the parser scans at most 8 characters) that
do not contain both access tokens r and w: parsing any permutation of
such a text yields the same descriptor, with unrecognized characters
ignored. -/
theorem mmapio_mode_parse_perm_invariant (l lp : List Nat)
    (hperm : l.Perm lp) (hlen : l.length ≤ 8) (h0 : 0 ∉ l)
    (hrw : ¬ (0x72 ∈ l ∧ 0x77 ∈ l)) :
    mmapio_mode_parse l = mmapio_mode_parse lp := by
  have hlenp : lp.length ≤ 8 := hperm.length_eq ▸ hlen
  have h0p : 0 ∉ lp := fun h => h0 (hperm.mem_iff.mpr h)
  have hrwp : ¬ (0x72 ∈ lp ∧ 0x77 ∈ lp) := fun h =>
    hrw ⟨hperm.mem_iff.mpr h.1, hperm.mem_iff.mpr h.2⟩
  unfold mmapio_mode_parse
  refine mmapio_mode_tag_ext ?_ ?_ ?_ ?_
  · rw [mmapio_mode_loop_mode l 8 _ hlen h0 hrw,
      mmapio_mode_loop_mode lp 8 _ hlenp h0p hrwp]
    simp only [hperm.mem_iff]
  · rw [mmapio_mode_loop_end_ l 8 _ hlen h0,
      mmapio_mode_loop_end_ lp 8 _ hlenp h0p]
    simp only [hperm.mem_iff]
  · rw [mmapio_mode_loop_privy l 8 _ hlen h0,
      mmapio_mode_loop_privy lp 8 _ hlenp h0p]
    simp only [hperm.mem_iff]
  · rw [mmapio_mode_loop_bequeath l 8 _ hlen h0,
      mmapio_mode_loop_bequeath lp 8 _ hlenp h0p]
    simp only [hperm.mem_iff]

/-- Witness for the amended claim C7 at the concrete permutation pair
we and ew. -/
theorem mmapio_mode_parse_perm_invariant_witness :
    mmapio_mode_parse [0x77, 0x65] = mmapio_mode_parse [0x65, 0x77] :=
  mmapio_mode_parse_perm_invariant [0x77, 0x65] [0x65, 0x77]
    (by decide) (by decide) (by decide) (by decide)

/-- Claim C1: for every open that succeeds with extend-to-end unset and
a positive requested size, the length operation on the returned handle
equals the requested size exactly, for every requested offset
regardless of alignment (total mapped length is size + shift and
length returns total mapped length - shift), on both backends. -/
theorem mmapio_length_eq_requested :
    (∀ (env : UnixEnv) (fd : Int) (mt : mmapio_mode_tag) (sz off : Nat)
      (h : mmapio_unix),
      mt.end_ = 0 → 0 < sz → sz < SIZE_MOD → off < SIZE_MOD →
      (mmapio_open_rest env fd mt sz off).handle = some h →
      mmapio_mmi_length h = sz) ∧
    (∀ (env : WinEnv) (fd : Nat) (mt : mmapio_mode_tag) (sz off : Nat)
      (h : mmapio_win32),
      mt.end_ = 0 → 0 < sz → sz < SIZE_MOD → off < SIZE_MOD →
      (mmapio_open_rest_w32 env fd mt sz off).handle = some h →
      mmapio_mmi_length_w32 h = sz) := by
  constructor
  · intro env fd mt sz off h hend hpos hsz hoff hopen
    unfold mmapio_open_rest mmapio_page_fix mmapio_mmap_step
      mmapio_unix_fail at hopen
    rw [hend] at hopen
    simp only [ne_eq, not_true_eq_false, if_false] at hopen
    split at hopen
    · simp at hopen
    split at hopen
    · simp at hopen
    split at hopen
    · rename_i hpage
      split at hopen
      · simp at hopen
      · split at hopen
        · simp at hopen
        · rename_i hguard _
          simp only [Option.some.injEq] at hopen
          subst hopen
          simp only [mmapio_mmi_length, SIZE_MOD, SIZE_MAX] at *
          omega
    · split at hopen
      · simp at hopen
      · simp only [Option.some.injEq] at hopen
        subst hopen
        simp only [mmapio_mmi_length, SIZE_MOD] at *
        omega
  · intro env fd mt sz off h hend hpos hsz hoff hopen
    unfold mmapio_open_rest_w32 mmapio_w32_gran_fix mmapio_w32_map_step
      mmapio_w32_fail at hopen
    rw [hend] at hopen
    simp only [ne_eq, not_true_eq_false, if_false] at hopen
    split at hopen
    · simp at hopen
    split at hopen
    · simp at hopen
    split at hopen
    · rename_i hpage
      split at hopen
      · simp at hopen
      · rename_i hguard
        split at hopen
        · simp at hopen
        · split at hopen
          · simp at hopen
          · simp only [Option.some.injEq] at hopen
            subst hopen
            simp only [mmapio_mmi_length_w32, SIZE_MOD, SIZE_MAX] at *
            omega
    · split at hopen
      · simp at hopen
      · split at hopen
        · simp at hopen
        · simp only [Option.some.injEq] at hopen
          subst hopen
          simp only [mmapio_mmi_length_w32, SIZE_MOD] at *
          omega

/-- Witness for claim C1: a concrete Unix open with page size 4096,
offset 10 and size 100 yields a handle whose exposed length is 100. -/
theorem mmapio_length_eq_requested_witness :
    mmapio_mmi_length
      { ptr := 139637976727552, len := 110, shift := 10, fd := 3 } = 100 :=
  mmapio_length_eq_requested.1
    { open_result := 3, calloc_ok := true, fcntl_getfd := 0,
      fcntl_setfd_ok := true, file_size := 4096, page_size := 4096,
      mmap_result := 139637976727552 }
    3 (mmapio_mode_parse [0x72]) 100 10
    { ptr := 139637976727552, len := 110, shift := 10, fd := 3 }
    (by decide) (by decide) (by decide) (by decide) (by decide)


/-! Small step lemmas about the mapping steps, shared by the
granularity theorems. -/

theorem mmapio_mmap_step_mapped (env : UnixEnv) (fd : Int)
    (a b c : Nat) : (mmapio_mmap_step env fd a b c).mapped = some (c, a) := by
  unfold mmapio_mmap_step mmapio_unix_fail
  split <;> rfl

theorem mmapio_mmap_step_erange (env : UnixEnv) (fd : Int)
    (a b c : Nat) : (mmapio_mmap_step env fd a b c).errno_erange = false := by
  unfold mmapio_mmap_step mmapio_unix_fail
  split <;> rfl

theorem mmapio_mmap_step_handle (env : UnixEnv) (fd : Int)
    (a b c : Nat) (h : mmapio_unix) :
    (mmapio_mmap_step env fd a b c).handle = some h →
    h.len = a ∧ h.shift = b := by
  unfold mmapio_mmap_step mmapio_unix_fail
  split
  · simp
  · intro hh
    simp only [Option.some.injEq] at hh
    subst hh
    exact ⟨rfl, rfl⟩

theorem mmapio_w32_map_step_mapped (env : WinEnv) (fd : Nat)
    (a b c d : Nat) (hcfm : ¬ env.cfm_result = 0) :
    (mmapio_w32_map_step env fd a b c d).mapped = some (c, a) := by
  unfold mmapio_w32_map_step
  rw [if_neg hcfm]
  split <;> rfl

theorem mmapio_w32_map_step_erange (env : WinEnv) (fd : Nat)
    (a b c d : Nat) :
    (mmapio_w32_map_step env fd a b c d).errno_erange = false := by
  unfold mmapio_w32_map_step
  split
  · rfl
  · split <;> rfl

theorem mmapio_w32_map_step_handle (env : WinEnv) (fd : Nat)
    (a b c d : Nat) (h : mmapio_win32) :
    (mmapio_w32_map_step env fd a b c d).handle = some h →
    h.len = a ∧ h.shift = b := by
  unfold mmapio_w32_map_step
  split
  · simp
  · split
    · simp
    · intro hh
      simp only [Option.some.injEq] at hh
      subst hh
      exact ⟨rfl, rfl⟩

/-- Claim C6: with a positive granularity, letting shift = offset mod
granularity, the open fails with no handle and errno ERANGE when
shift is at least SIZE_MAX - size, and otherwise calls the mapping
primitive with corrected offset offset - shift and corrected size
size + shift, which does not wrap, on both backends. -/
theorem mmapio_overflow_guard :
    (∀ (env : UnixEnv) (fd : Int) (mt : mmapio_mode_tag) (sz off : Nat),
      env.calloc_ok = true → 0 ≤ env.fcntl_getfd →
      env.fcntl_setfd_ok = true → mt.end_ = 0 → 0 < env.page_size →
      0 < sz → sz < SIZE_MOD →
      ((SIZE_MAX - sz ≤ off % env.page_size.toNat →
        (mmapio_open_rest env fd mt sz off).handle = none ∧
        (mmapio_open_rest env fd mt sz off).errno_erange = true ∧
        (mmapio_open_rest env fd mt sz off).fd_closed = true ∧
        (mmapio_open_rest env fd mt sz off).mem_freed = true) ∧
       (off % env.page_size.toNat < SIZE_MAX - sz →
        (mmapio_open_rest env fd mt sz off).mapped =
          some (off - off % env.page_size.toNat,
                sz + off % env.page_size.toNat) ∧
        sz + off % env.page_size.toNat < SIZE_MOD ∧
        (mmapio_open_rest env fd mt sz off).errno_erange = false))) ∧
    (∀ (env : WinEnv) (fd : Nat) (mt : mmapio_mode_tag) (sz off : Nat),
      env.calloc_ok = true → mt.end_ = 0 → 0 < env.alloc_gran →
      0 < sz → sz < SIZE_MOD →
      ((SIZE_MAX - sz ≤ off % env.alloc_gran →
        (mmapio_open_rest_w32 env fd mt sz off).handle = none ∧
        (mmapio_open_rest_w32 env fd mt sz off).errno_erange = true ∧
        (mmapio_open_rest_w32 env fd mt sz off).fd_closed = true ∧
        (mmapio_open_rest_w32 env fd mt sz off).mem_freed = true) ∧
       (env.cfm_result ≠ 0 → off % env.alloc_gran < SIZE_MAX - sz →
        (mmapio_open_rest_w32 env fd mt sz off).mapped =
          some (off - off % env.alloc_gran, sz + off % env.alloc_gran) ∧
        sz + off % env.alloc_gran < SIZE_MOD ∧
        (mmapio_open_rest_w32 env fd mt sz off).errno_erange = false))) := by
  constructor
  · intro env fd mt sz off hcal hfg hfs hend hpage hpos hsz
    have hc1 : ¬ env.calloc_ok = false := by simp [hcal]
    have hc2 : ¬ (env.fcntl_getfd < 0 ∨ env.fcntl_setfd_ok = false) := by
      rw [not_or]
      exact ⟨not_lt.mpr hfg, by simp [hfs]⟩
    have hc3 : ¬ mt.end_ ≠ 0 := by simp [hend]
    constructor
    · intro hguard
      simp only [mmapio_open_rest, mmapio_page_fix]
      rw [if_neg hc1, if_neg hc2, if_neg hc3, if_pos hpage, if_pos hguard]
      exact ⟨rfl, rfl, rfl, rfl⟩
    · intro hguard
      have hg : ¬ SIZE_MAX - sz ≤ off % env.page_size.toNat :=
        not_le.mpr hguard
      simp only [mmapio_open_rest, mmapio_page_fix]
      rw [if_neg hc1, if_neg hc2, if_neg hc3, if_pos hpage, if_neg hg]
      refine ⟨mmapio_mmap_step_mapped _ _ _ _ _, ?_,
        mmapio_mmap_step_erange _ _ _ _ _⟩
      simp only [SIZE_MAX, SIZE_MOD] at *
      omega
  · intro env fd mt sz off hcal hend hpage hpos hsz
    have hc3 : ¬ mt.end_ ≠ 0 := by simp [hend]
    have hsz0 : ¬ sz = 0 := by omega
    constructor
    · intro hguard
      simp only [mmapio_open_rest_w32, mmapio_w32_gran_fix]
      rw [if_neg (by simp [hcal] : ¬ env.calloc_ok = false), if_neg hc3,
        if_neg hsz0, if_pos hpage, if_pos hguard]
      exact ⟨rfl, rfl, rfl, rfl⟩
    · intro hcfm hguard
      have hg : ¬ SIZE_MAX - sz ≤ off % env.alloc_gran :=
        not_le.mpr hguard
      simp only [mmapio_open_rest_w32, mmapio_w32_gran_fix]
      rw [if_neg (by simp [hcal] : ¬ env.calloc_ok = false), if_neg hc3,
        if_neg hsz0, if_pos hpage, if_neg hg]
      refine ⟨mmapio_w32_map_step_mapped _ _ _ _ _ _ hcfm, ?_,
        mmapio_w32_map_step_erange _ _ _ _ _ _⟩
      simp only [SIZE_MAX, SIZE_MOD] at *
      omega

/-- Witness for claim C6 at a concrete Unix open: page size 4096,
size 100, offset 10 gives shift 10, corrected offset 0, corrected
size 110, no overflow failure. -/
theorem mmapio_overflow_guard_witness :
    (mmapio_open_rest
      { open_result := 3, calloc_ok := true, fcntl_getfd := 0,
        fcntl_setfd_ok := true, file_size := 4096, page_size := 4096,
        mmap_result := 139637976727552 }
      3 (mmapio_mode_parse [0x72]) 100 10).mapped = some (0, 110) ∧
    (100 : Nat) + 10 % (4096 : Int).toNat < SIZE_MOD ∧
    (mmapio_open_rest
      { open_result := 3, calloc_ok := true, fcntl_getfd := 0,
        fcntl_setfd_ok := true, file_size := 4096, page_size := 4096,
        mmap_result := 139637976727552 }
      3 (mmapio_mode_parse [0x72]) 100 10).errno_erange = false :=
  (mmapio_overflow_guard.1
    { open_result := 3, calloc_ok := true, fcntl_getfd := 0,
      fcntl_setfd_ok := true, file_size := 4096, page_size := 4096,
      mmap_result := 139637976727552 }
    3 (mmapio_mode_parse [0x72]) 100 10
    (by decide) (by decide) (by decide) (by decide) (by decide)
    (by decide) (by decide)).2 (by decide)

/-- Claim C9: when the granularity query yields a non-positive value
(`sysconf` result at most 0 on Unix, allocation granularity 0 on
Windows), shift is treated as zero: the caller's offset and size are
passed uncorrected to the mapping call, the range-fix failure is not
raised, and a successful open still exposes length equal to the
requested size. -/
theorem mmapio_granularity_fallback :
    (∀ (env : UnixEnv) (fd : Int) (mt : mmapio_mode_tag) (sz off : Nat),
      env.calloc_ok = true → 0 ≤ env.fcntl_getfd →
      env.fcntl_setfd_ok = true → mt.end_ = 0 → env.page_size ≤ 0 →
      0 < sz → sz < SIZE_MOD →
      (mmapio_open_rest env fd mt sz off).mapped = some (off, sz) ∧
      (mmapio_open_rest env fd mt sz off).errno_erange = false ∧
      (∀ h : mmapio_unix,
        (mmapio_open_rest env fd mt sz off).handle = some h →
        mmapio_mmi_length h = sz)) ∧
    (∀ (env : WinEnv) (fd : Nat) (mt : mmapio_mode_tag) (sz off : Nat),
      env.calloc_ok = true → mt.end_ = 0 → env.alloc_gran = 0 →
      env.cfm_result ≠ 0 → 0 < sz → sz < SIZE_MOD →
      (mmapio_open_rest_w32 env fd mt sz off).mapped = some (off, sz) ∧
      (mmapio_open_rest_w32 env fd mt sz off).errno_erange = false ∧
      (∀ h : mmapio_win32,
        (mmapio_open_rest_w32 env fd mt sz off).handle = some h →
        mmapio_mmi_length_w32 h = sz)) := by
  constructor
  · intro env fd mt sz off hcal hfg hfs hend hpage hpos hsz
    have hc1 : ¬ env.calloc_ok = false := by simp [hcal]
    have hc2 : ¬ (env.fcntl_getfd < 0 ∨ env.fcntl_setfd_ok = false) := by
      rw [not_or]
      exact ⟨not_lt.mpr hfg, by simp [hfs]⟩
    have hc3 : ¬ mt.end_ ≠ 0 := by simp [hend]
    have hp : ¬ 0 < env.page_size := not_lt.mpr hpage
    simp only [mmapio_open_rest, mmapio_page_fix]
    rw [if_neg hc1, if_neg hc2, if_neg hc3, if_neg hp]
    refine ⟨mmapio_mmap_step_mapped _ _ _ _ _,
      mmapio_mmap_step_erange _ _ _ _ _, ?_⟩
    intro h hh
    obtain ⟨hlen, hshift⟩ := mmapio_mmap_step_handle _ _ _ _ _ _ hh
    simp only [mmapio_mmi_length, hlen, hshift, SIZE_MOD] at *
    omega
  · intro env fd mt sz off hcal hend hpage hcfm hpos hsz
    have hc3 : ¬ mt.end_ ≠ 0 := by simp [hend]
    have hsz0 : ¬ sz = 0 := by omega
    have hp : ¬ 0 < env.alloc_gran := by omega
    simp only [mmapio_open_rest_w32, mmapio_w32_gran_fix]
    rw [if_neg (by simp [hcal] : ¬ env.calloc_ok = false), if_neg hc3,
      if_neg hsz0, if_neg hp]
    refine ⟨mmapio_w32_map_step_mapped _ _ _ _ _ _ hcfm,
      mmapio_w32_map_step_erange _ _ _ _ _ _, ?_⟩
    intro h hh
    obtain ⟨hlen, hshift⟩ := mmapio_w32_map_step_handle _ _ _ _ _ _ _ hh
    simp only [mmapio_mmi_length_w32, hlen, hshift, SIZE_MOD] at *
    omega

/-- Witness for claim C9: a concrete Unix open with `sysconf`
reporting page size 0 maps the uncorrected offset 10 with size 100 and
exposes length 100. -/
theorem mmapio_granularity_fallback_witness :
    (mmapio_open_rest
      { open_result := 3, calloc_ok := true, fcntl_getfd := 0,
        fcntl_setfd_ok := true, file_size := 4096, page_size := 0,
        mmap_result := 139637976727552 }
      3 (mmapio_mode_parse [0x72]) 100 10).mapped = some (10, 100) ∧
    mmapio_mmi_length
      { ptr := 139637976727552, len := 100, shift := 0, fd := 3 } = 100 :=
  ⟨(mmapio_granularity_fallback.1
      { open_result := 3, calloc_ok := true, fcntl_getfd := 0,
        fcntl_setfd_ok := true, file_size := 4096, page_size := 0,
        mmap_result := 139637976727552 }
      3 (mmapio_mode_parse [0x72]) 100 10
      (by decide) (by decide) (by decide) (by decide) (by decide)
      (by decide) (by decide)).1,
   (mmapio_granularity_fallback.1
      { open_result := 3, calloc_ok := true, fcntl_getfd := 0,
        fcntl_setfd_ok := true, file_size := 4096, page_size := 0,
        mmap_result := 139637976727552 }
      3 (mmapio_mode_parse [0x72]) 100 10
      (by decide) (by decide) (by decide) (by decide) (by decide)
      (by decide) (by decide)).2.2
      { ptr := 139637976727552, len := 100, shift := 0, fd := 3 }
      (by decide)⟩

/-- 2^63: canonical bound on user-space addresses and on `size_t`
inputs used for the no-wrap hypotheses of the acquire theorem. -/
def HALF_MOD : Nat := 9223372036854775808

theorem mmapio_mmap_step_ptr (env : UnixEnv) (fd : Int)
    (a b c : Nat) (h : mmapio_unix) :
    (mmapio_mmap_step env fd a b c).handle = some h →
    h.ptr = env.mmap_result ∧ env.mmap_result ≠ 0 ∧ h.shift = b := by
  unfold mmapio_mmap_step mmapio_unix_fail
  split
  · simp
  · rename_i hmm
    intro hh
    simp only [Option.some.injEq] at hh
    subst hh
    exact ⟨rfl, hmm, rfl⟩

theorem mmapio_page_fix_ptr (env : UnixEnv) (fd : Int) (sz off : Nat)
    (h : mmapio_unix) :
    (mmapio_page_fix env fd sz off).handle = some h →
    h.ptr = env.mmap_result ∧ env.mmap_result ≠ 0 ∧ h.shift ≤ off := by
  intro hh
  unfold mmapio_page_fix at hh
  split at hh
  · split at hh
    · simp [mmapio_unix_fail] at hh
    · obtain ⟨h1, h2, h3⟩ := mmapio_mmap_step_ptr _ _ _ _ _ _ hh
      exact ⟨h1, h2, h3 ▸ Nat.mod_le _ _⟩
  · obtain ⟨h1, h2, h3⟩ := mmapio_mmap_step_ptr _ _ _ _ _ _ hh
    exact ⟨h1, h2, h3 ▸ Nat.zero_le _⟩

theorem mmapio_open_rest_ptr (env : UnixEnv) (fd : Int)
    (mt : mmapio_mode_tag) (sz off : Nat) (h : mmapio_unix) :
    (mmapio_open_rest env fd mt sz off).handle = some h →
    h.ptr = env.mmap_result ∧ env.mmap_result ≠ 0 ∧ h.shift ≤ off := by
  unfold mmapio_open_rest
  split
  · simp
  split
  · simp
  split
  · split
    · exact mmapio_page_fix_ptr _ _ _ _ _
    · exact mmapio_page_fix_ptr _ _ _ _ _
  · exact mmapio_page_fix_ptr _ _ _ _ _

theorem mmapio_w32_map_step_ptr (env : WinEnv) (fd : Nat)
    (a b c d : Nat) (h : mmapio_win32) :
    (mmapio_w32_map_step env fd a b c d).handle = some h →
    h.ptr = env.mvof_result ∧ env.mvof_result ≠ 0 ∧ h.shift = b := by
  unfold mmapio_w32_map_step
  split
  · simp
  · split
    · simp
    · rename_i hmv
      intro hh
      simp only [Option.some.injEq] at hh
      subst hh
      exact ⟨rfl, hmv, rfl⟩

theorem mmapio_w32_gran_fix_ptr (env : WinEnv) (fd : Nat)
    (sz off : Nat) (h : mmapio_win32) :
    (mmapio_w32_gran_fix env fd sz off).handle = some h →
    h.ptr = env.mvof_result ∧ env.mvof_result ≠ 0 ∧ h.shift ≤ off := by
  intro hh
  unfold mmapio_w32_gran_fix at hh
  split at hh
  · split at hh
    · simp [mmapio_w32_fail] at hh
    · obtain ⟨h1, h2, h3⟩ := mmapio_w32_map_step_ptr _ _ _ _ _ _ _ hh
      exact ⟨h1, h2, h3 ▸ Nat.mod_le _ _⟩
  · obtain ⟨h1, h2, h3⟩ := mmapio_w32_map_step_ptr _ _ _ _ _ _ _ hh
    exact ⟨h1, h2, h3 ▸ Nat.zero_le _⟩

theorem mmapio_open_rest_w32_ptr (env : WinEnv) (fd : Nat)
    (mt : mmapio_mode_tag) (sz off : Nat) (h : mmapio_win32) :
    (mmapio_open_rest_w32 env fd mt sz off).handle = some h →
    h.ptr = env.mvof_result ∧ env.mvof_result ≠ 0 ∧ h.shift ≤ off := by
  unfold mmapio_open_rest_w32
  split
  · simp
  split
  · split
    · simp [mmapio_w32_fail]
    · exact mmapio_w32_gran_fix_ptr _ _ _ _ _
  · split
    · simp [mmapio_w32_fail]
    · exact mmapio_w32_gran_fix_ptr _ _ _ _ _

/-- Claim C10: for every handle returned by a successful open, the
acquire operation always succeeds: it returns base pointer + shift and
never the NULL failure sentinel its interface documentation permits,
on both backends (assuming the mapping base address and the requested
offset lie below 2^63, so that the pointer addition cannot wrap). -/
theorem mmapio_acquire_never_null :
    (∀ (env : UnixEnv) (fd : Int) (mt : mmapio_mode_tag) (sz off : Nat)
      (h : mmapio_unix),
      (mmapio_open_rest env fd mt sz off).handle = some h →
      env.mmap_result < HALF_MOD → off < HALF_MOD →
      mmapio_mmi_acquire h = h.ptr + h.shift ∧
      0 < mmapio_mmi_acquire h) ∧
    (∀ (env : WinEnv) (fd : Nat) (mt : mmapio_mode_tag) (sz off : Nat)
      (h : mmapio_win32),
      (mmapio_open_rest_w32 env fd mt sz off).handle = some h →
      env.mvof_result < HALF_MOD → off < HALF_MOD →
      mmapio_mmi_acquire_w32 h = h.ptr + h.shift ∧
      0 < mmapio_mmi_acquire_w32 h) := by
  constructor
  · intro env fd mt sz off h hopen hb1 hb2
    obtain ⟨h1, h2, h3⟩ := mmapio_open_rest_ptr _ _ _ _ _ _ hopen
    simp only [mmapio_mmi_acquire, HALF_MOD, SIZE_MOD, h1] at *
    omega
  · intro env fd mt sz off h hopen hb1 hb2
    obtain ⟨h1, h2, h3⟩ := mmapio_open_rest_w32_ptr _ _ _ _ _ _ hopen
    simp only [mmapio_mmi_acquire_w32, HALF_MOD, SIZE_MOD, h1] at *
    omega

/-- Witness for claim C10 at a concrete successful Unix open: acquire
on the returned handle yields base + shift and is nonzero. -/
theorem mmapio_acquire_never_null_witness :
    mmapio_mmi_acquire
      { ptr := 139637976727552, len := 110, shift := 10, fd := 3 }
      = 139637976727552 + 10 ∧
    0 < mmapio_mmi_acquire
      { ptr := 139637976727552, len := 110, shift := 10, fd := 3 } :=
  mmapio_acquire_never_null.1
    { open_result := 3, calloc_ok := true, fcntl_getfd := 0,
      fcntl_setfd_ok := true, file_size := 4096, page_size := 4096,
      mmap_result := 139637976727552 }
    3 (mmapio_mode_parse [0x72]) 100 10
    { ptr := 139637976727552, len := 110, shift := 10, fd := 3 }
    (by decide) (by decide) (by decide)

/-- Claim C2 (code evaluation): Unix backend, mode re, file length
4096, offset 5000 beyond end of file, page size 4096.  The source sets
sz to 0 intending the request to fail, but nothing rejects it: mmap is
invoked with length 904 (= 5000 mod 4096), and when that call returns
a pointer (Linux permits a mapping at or past end of file) the open
returns a non-NULL handle whose exposed length is 0 — the zero-length
success the claim forbids.  (When mmap does fail it returns
MAP_FAILED, which the ptr == NULL test also fails to catch.) -/
theorem mmapio_extend_beyond_eof_not_rejected :
    (mmapio_open_rest
      { open_result := 3, calloc_ok := true, fcntl_getfd := 0,
        fcntl_setfd_ok := true, file_size := 4096, page_size := 4096,
        mmap_result := 139637976727552 }
      3 (mmapio_mode_parse [0x72, 0x65]) 100 5000).handle
      = some { ptr := 139637976727552, len := 904, shift := 904, fd := 3 }
    ∧ mmapio_mmi_length
        { ptr := 139637976727552, len := 904, shift := 904, fd := 3 } = 0 := by
  constructor
  · decide
  · decide

/-- Claim C3 (code evaluation): for a mode text with no access token
(here x), the translator returns the sentinel 0, which on POSIX is
numerically O_RDONLY, and the protection translator returns 0
(PROT_NONE); nothing in `mmapio_open` treats the sentinel as fatal, so
with the file opened read-only and mmap succeeding (PROT_NONE is a
valid protection) the entry point returns a non-NULL handle instead of
failing. -/
theorem mmapio_no_access_token_not_fatal :
    mmapio_mode_rw_cvt 0 = O_RDONLY ∧ mmapio_mode_prot_cvt 0 = 0 ∧
    (mmapio_open
      { open_result := 3, calloc_ok := true, fcntl_getfd := 0,
        fcntl_setfd_ok := true, file_size := 4096, page_size := 4096,
        mmap_result := 139637976727552 }
      [0x78] 100 0).handle
      = some { ptr := 139637976727552, len := 100, shift := 0, fd := 3 } := by
  refine ⟨rfl, rfl, ?_⟩
  decide

/-- Claim C4 (code evaluation): Unix backend, mode w, size 0, offset
0, extend-to-end unset.  The Unix `mmapio_open_rest` has no zero-size
rejection (only the Win32 backend does); mmap is called with length 0,
which POSIX requires to fail returning MAP_FAILED, and the
ptr == NULL test does not catch that value, so the open returns a
non-NULL handle of length 0 wrapping MAP_FAILED instead of rejecting
the request. -/
theorem mmapio_zero_size_not_rejected :
    (mmapio_open_rest
      { open_result := 3, calloc_ok := true, fcntl_getfd := 0,
        fcntl_setfd_ok := true, file_size := 4096, page_size := 4096,
        mmap_result := MAP_FAILED }
      3 (mmapio_mode_parse [0x77]) 0 0).handle
      = some { ptr := MAP_FAILED, len := 0, shift := 0, fd := 3 } := by
  decide

/-- Claim C5 (code evaluation): when the Unix mapping primitive fails
— POSIX mmap signals failure by returning MAP_FAILED ((void*)-1),
never NULL — the ptr == NULL test in `mmapio_open_rest` does not
detect it: the open returns a handle wrapping the failed mapping, the
file descriptor is not closed and the backend storage is not freed,
contradicting the claim that every mapping failure yields the NULL
sentinel with all resources released. -/
theorem mmapio_map_failed_handle_returned :
    (mmapio_open_rest
      { open_result := 3, calloc_ok := true, fcntl_getfd := 0,
        fcntl_setfd_ok := true, file_size := 4096, page_size := 4096,
        mmap_result := MAP_FAILED }
      3 (mmapio_mode_parse [0x72]) 100 0)
      = { handle := some { ptr := MAP_FAILED, len := 100, shift := 0,
                           fd := 3 },
          fd_closed := false, mem_freed := false, errno_erange := false,
          mapped := some (0, 100) } := by
  decide

/-- Claim C8 (code evaluation): the well-formed two-byte UTF-8
sequence C3 A9 (U+00E9) is rejected with EILSEQ instead of decoding to
the single code unit 0x00E9, because the continuation-byte loop reads
byte p + i with i counting from 0 — the lead byte itself, which is
at least 0xC0 and so always trips the continuation check.  Every
well-formed 2-, 3- and 4-byte sequence is rejected the same way. -/
theorem mmapio_u8towc_rejects_two_byte :
    mmapio_u8towc_shim [0xC3, 0xA9] = Except.error MMAPIO_EILSEQ ∧
    mmapio_u8towc [0xC3, 0xA9] = none := by
  constructor
  · rfl
  · rfl
